import Mathlib

/-!
Verification of the tamper-evident proctoring audit subsystem of the
smart-proctoring-system repository.

The development embeds, as executable Lean definitions:

* the hash-chain ledger (`Block`, `digest`, `appendBlock`, `initGenesis`,
  `verify`) — the backend service `blockchain_service.py` is not part of the
  shipped sources (only its REST client `frontend/src/services/blockchainService.js`,
  the `blockchain_logs` schema and the genesis seed row of
  `backend/old_flask_backup/database/MANUAL_SETUP.sql` are), so the ledger
  operations are modelled from the specification, as flagged on each definition;
* the exam-session event handling of `frontend/src/pages/ExamSessionPage.jsx`
  (`handleProctoringEvent`, `autoTerminate`);
* the client-side event throttle of
  `frontend/src/components/proctoring/FaceMonitor.jsx` (`triggerEvent`);
* the severity table of `frontend/src/utils/constants.js` and the classifier
  contract built on it;
* the persisted `attempt_status` enumeration of the database schema;
* the behavioural-biometrics accumulator of
  `frontend/src/services/advancedProctoring.js`.
-/

namespace Proctoring

/-! ## Injective encodings used by the modelled digest

The real backend hashes the canonical serialization of a block with SHA-256
(`utils/blockchain_hasher.py`, not in the shipped sources).  The model replaces
the digest by an injective encoding into `Nat`, so that distinct canonical
inputs provably yield distinct digests — the idealised collision-freeness that
the specification's tamper-evidence property presumes. -/

/-- Encode a list of naturals injectively into a natural number. -/
def encList : List Nat → Nat
  | [] => 0
  | x :: xs => Nat.pair x (encList xs) + 1

theorem encList_injective : Function.Injective encList := by
  intro a
  induction a with
  | nil =>
    intro b h
    cases b with
    | nil => rfl
    | cons y ys => simp [encList] at h
  | cons x xs ih =>
    intro b h
    cases b with
    | nil => simp [encList] at h
    | cons y ys =>
      simp only [encList, Nat.add_right_cancel_iff, Nat.pair_eq_pair] at h
      rw [h.1, ih h.2]

/-- Encode a string injectively into a natural number via its scalar values. -/
def encStr (s : String) : Nat :=
  encList (s.data.map Char.toNat)

theorem char_toNat_injective : Function.Injective Char.toNat := by
  intro a b h
  apply Char.eq_of_val_eq
  apply UInt32.eq_of_toBitVec_eq
  exact BitVec.eq_of_toNat_eq h

theorem encStr_injective : Function.Injective encStr := by
  intro a b h
  have hdata : a.data = b.data :=
    List.map_injective_iff.mpr char_toNat_injective (encList_injective h)
  cases a
  cases b
  exact congrArg String.mk hdata

/-- Encode an optional natural number injectively. -/
def encOptNat : Option Nat → Nat
  | none => 0
  | some n => n + 1

theorem encOptNat_injective : Function.Injective encOptNat := by
  intro a b h
  cases a <;> cases b <;> simp [encOptNat] at h <;> simp [h]

/-- Encode an optional string injectively. -/
def encOptStr : Option String → Nat
  | none => 0
  | some s => encStr s + 1

theorem encOptStr_injective : Function.Injective encOptStr := by
  intro a b h
  cases a <;> cases b <;> simp [encOptStr] at h
  · rfl
  · simp [encStr_injective h]

/-! ## The hash-chain ledger -/

/-- Modelled from the spec: `current_hash = digest(sequence_number ||
previous_hash || event_type || entity_type || entity_id || canonical(payload)
|| created_at)` (spec section 4.1); the digest itself lives in the missing
backend `utils/blockchain_hasher.py` and is modelled as an injective pairing. -/
def digest (seq : Nat) (prevHash : Option Nat) (eventType entityType : String)
    (entityId : Option String) (payload : String) (createdAt : Nat) : Nat :=
  Nat.pair seq
    (Nat.pair (encOptNat prevHash)
      (Nat.pair (encStr eventType)
        (Nat.pair (encStr entityType)
          (Nat.pair (encOptStr entityId)
            (Nat.pair (encStr payload) createdAt)))))

theorem digest_injective
    {s1 s2 : Nat} {p1 p2 : Option Nat} {e1 e2 t1 t2 : String}
    {i1 i2 : Option String} {pl1 pl2 : String} {c1 c2 : Nat}
    (h : digest s1 p1 e1 t1 i1 pl1 c1 = digest s2 p2 e2 t2 i2 pl2 c2) :
    s1 = s2 ∧ p1 = p2 ∧ e1 = e2 ∧ t1 = t2 ∧ i1 = i2 ∧ pl1 = pl2 ∧ c1 = c2 := by
  simp only [digest, Nat.pair_eq_pair] at h
  obtain ⟨h1, h2, h3, h4, h5, h6, h7⟩ := h
  exact ⟨h1, encOptNat_injective h2, encStr_injective h3, encStr_injective h4,
    encOptStr_injective h5, encStr_injective h6, h7⟩

/-- One ledger entry of the `blockchain_logs` table
(`MANUAL_SETUP.sql`): sequence number, previous hash (`NULL` for genesis),
current hash, event type, entity type, optional entity id, canonical payload,
creation timestamp.  Hash values are modelled as `Nat` (the DB stores them as
hex strings). -/
structure Block where
  seq : Nat
  previousHash : Option Nat
  currentHash : Nat
  eventType : String
  entityType : String
  entityId : Option String
  payload : String
  createdAt : Nat
deriving DecidableEq, Repr

/-- The digest recomputed from a block's stored fields (spec section 4.2). -/
def digestBlock (b : Block) : Nat :=
  digest b.seq b.previousHash b.eventType b.entityType b.entityId b.payload b.createdAt

/-- The well-known genesis sentinel hash.  The seed row of `MANUAL_SETUP.sql`
stores the constant string `genesis_block_hash_0000...`; the model represents
it by the constant `0` (which is not a digest of any block, since every digest
is a `Nat.pair` value of the genesis fields only by coincidence — no property
below relies on that). -/
def genesisSentinelHash : Nat := 0

/-- The genesis block inserted by step 7 of `MANUAL_SETUP.sql`:
`previous_hash = NULL`, the sentinel `current_hash`, `event_type = system_init`,
`entity_type = system`, `entity_id = NULL`, the initialisation payload. -/
def genesisBlock : Block :=
  { seq := 0
    previousHash := none
    currentHash := genesisSentinelHash
    eventType := "system_init"
    entityType := "system"
    entityId := none
    payload := "\x7b\"system\": \"Smart Proctoring System\", \"version\": \"1.0\", \"description\": \"Blockchain audit trail initialized\"\x7d"
    createdAt := 0 }

/-- Modelled from the spec: bootstrapping the ledger (`POST
/blockchain/initialize`, client `blockchainService.initializeGenesis`; the
server-side handler is not in the shipped sources).  "The ledger is
bootstrapped once with a fixed sentinel block ...; bootstrapping twice is a
no-op (idempotent) rather than an error" (spec section 4.1). -/
def initGenesis (l : List Block) : List Block :=
  if l.isEmpty then [genesisBlock] else l

/-- Modelled from the spec: `append` "reads the current highest
`sequence_number` and its `current_hash`, assigns the next sequence number,
computes `current_hash = digest(...)`, and persists the block" (spec section
4.1).  The server-side implementation is not in the shipped sources.  The
ledger is kept in ascending sequence order; appending to a never-bootstrapped
(empty) ledger is outside the spec's lifecycle ("bootstrapped once" precedes
all appends) and is modelled as a no-op. -/
def appendBlock (l : List Block) (eventType entityType : String)
    (entityId : Option String) (payload : String) (createdAt : Nat) : List Block :=
  match l.getLast? with
  | none => l
  | some last =>
      l ++ [{ seq := last.seq + 1
              previousHash := some last.currentHash
              currentHash := digest (last.seq + 1) (some last.currentHash)
                eventType entityType entityId payload createdAt
              eventType := eventType
              entityType := entityType
              entityId := entityId
              payload := payload
              createdAt := createdAt }]

/-- The ledger's two mutating operations. -/
inductive Step where
  | bootstrap : Step
  | append (eventType entityType : String) (entityId : Option String)
      (payload : String) (createdAt : Nat) : Step

def applyStep (s : Step) (l : List Block) : List Block :=
  match s with
  | .bootstrap => initGenesis l
  | .append et ent eid p t => appendBlock l et ent eid p t

/-- Ledger states reachable from bootstrapping followed by any sequence of
operations. -/
inductive Reachable : List Block → Prop
  | genesis : Reachable (initGenesis [])
  | step (s : Step) {l : List Block} : Reachable l → Reachable (applyStep s l)

/-! ## The chain verifier -/

/-- A block whose stored `current_hash` matches the digest of its stored
fields. -/
def blockHashOk (b : Block) : Prop :=
  b.currentHash = digestBlock b

instance (b : Block) : Decidable (blockHashOk b) := by
  unfold blockHashOk; infer_instance

/-- Adjacency contract between consecutive blocks: stored `previous_hash`
equals the predecessor's stored `current_hash`, and the sequence number is
exactly one more. -/
def adjOk (p c : Block) : Prop :=
  c.previousHash = some p.currentHash ∧ c.seq = p.seq + 1

/-- The kinds of integrity mismatch the verifier reports. -/
inductive VKind where
  | hashMismatch
  | prevLinkMismatch
  | seqGap
deriving DecidableEq, Repr

/-- A descriptive verification error: the sequence position of the offending
block and the mismatch kind (spec section 4.2). -/
structure VError where
  seq : Nat
  kind : VKind
deriving DecidableEq, Repr

/-- Modelled from the spec: for block `i > 0` "recompute `expected_hash =
digest(...)` from its stored fields and assert it equals the stored
`current_hash`; assert the stored `previous_hash` equals the prior block's
`current_hash`; assert `sequence_number` is exactly one more than the prior
block's" (spec section 4.2). -/
def checkPair (i : Nat) (prev cur : Block) : List VError :=
  (if cur.currentHash = digestBlock cur then [] else [⟨i, .hashMismatch⟩]) ++
    (if cur.previousHash = some prev.currentHash then [] else [⟨i, .prevLinkMismatch⟩]) ++
      (if cur.seq = prev.seq + 1 then [] else [⟨i, .seqGap⟩])

/-- Walk the chain in ascending order, checking every block after genesis
against its predecessor; mismatches are collected and the scan continues. -/
def scanChain : Nat → Block → List Block → List VError
  | _, _, [] => []
  | i, prev, cur :: rest => checkPair i prev cur ++ scanChain (i + 1) cur rest

/-- All errors of a full verification pass.  The genesis block carries the
sentinel hash, not a digest of its fields, so the hash recomputation starts at
the second block (spec section 4.2: "for each block i > 0"). -/
def verifyErrors : List Block → List VError
  | [] => []
  | g :: rest => scanChain 1 g rest

/-- The result of `GET /blockchain/verify`. -/
structure VerificationResult where
  is_valid : Bool
  blocks_checked : Nat
  errors : List VError
deriving DecidableEq, Repr

/-- Modelled from the spec: `verify() -> VerificationResult{is_valid,
blocks_checked, errors[]}`; "`is_valid` is true iff `errors` is empty" (spec
section 4.2).  The server-side implementation is not in the shipped sources;
only the REST client `blockchainService.verifyIntegrity` is. -/
def verify (l : List Block) : VerificationResult :=
  { is_valid := (verifyErrors l).isEmpty
    blocks_checked := l.length
    errors := verifyErrors l }

/-! ## Structure of reachable chains -/

/-- Every block of `rest` hashes correctly and chains onto its predecessor,
starting from `p`. -/
def goodFrom : Block → List Block → Prop
  | _, [] => True
  | p, c :: rest => blockHashOk c ∧ adjOk p c ∧ goodFrom c rest

theorem goodFrom_cons (p d : Block) (rest : List Block) :
    goodFrom p (d :: rest) = (blockHashOk d ∧ adjOk p d ∧ goodFrom d rest) := rfl

theorem scanChain_cons (i : Nat) (p x : Block) (rest : List Block) :
    scanChain i p (x :: rest) = checkPair i p x ++ scanChain (i + 1) x rest := rfl

theorem goodFrom_decomp (pre : List Block) (p c : Block) (post : List Block) :
    goodFrom p (pre ++ c :: post) ↔
      goodFrom p pre ∧ blockHashOk c ∧
        adjOk ((p :: pre).getLast (by simp)) c ∧ goodFrom c post := by
  induction pre generalizing p with
  | nil => simp [goodFrom_cons, goodFrom, List.getLast_singleton]
  | cons d ds ih =>
    rw [List.cons_append, goodFrom_cons, ih d, goodFrom_cons]
    have hL : (p :: d :: ds).getLast (by simp) = (d :: ds).getLast (by simp) := by
      rw [List.getLast_cons]
    rw [hL]
    tauto

theorem scanChain_append (xs : List Block) (i : Nat) (p : Block) (ys : List Block) :
    scanChain i p (xs ++ ys) =
      scanChain i p xs ++ scanChain (i + xs.length) ((p :: xs).getLast (by simp)) ys := by
  induction xs generalizing i p with
  | nil => simp [scanChain, List.getLast_singleton]
  | cons x xs ih =>
    rw [List.cons_append, scanChain_cons, ih (i + 1) x, scanChain_cons]
    have hL : (p :: x :: xs).getLast (by simp) = (x :: xs).getLast (by simp) := by
      rw [List.getLast_cons]
    have hlen : i + (x :: xs).length = i + 1 + xs.length := by
      simp only [List.length_cons]
      omega
    rw [hL, hlen, List.append_assoc]

theorem scanChain_of_good {p : Block} {xs : List Block} (h : goodFrom p xs) :
    ∀ i, scanChain i p xs = [] := by
  induction xs generalizing p with
  | nil => intro i; rfl
  | cons c rest ih =>
    intro i
    obtain ⟨hhash, hadj, hrest⟩ := h
    have h1 : c.currentHash = digestBlock c := hhash
    simp [scanChain_cons, checkPair, h1, hadj.1, hadj.2, ih hrest]

theorem reachable_struct {l : List Block} (h : Reachable l) :
    ∃ rest, l = genesisBlock :: rest ∧ goodFrom genesisBlock rest := by
  induction h with
  | genesis => exact ⟨[], rfl, trivial⟩
  | step s h ih =>
    obtain ⟨rest, rfl, hgood⟩ := ih
    cases s with
    | bootstrap => exact ⟨rest, by simp [applyStep, initGenesis], hgood⟩
    | append et ent eid p t =>
      refine ⟨rest ++ [?_], ?_, ?_⟩
      · exact
          { seq := ((genesisBlock :: rest).getLast (by simp)).seq + 1
            previousHash := some ((genesisBlock :: rest).getLast (by simp)).currentHash
            currentHash := digest (((genesisBlock :: rest).getLast (by simp)).seq + 1)
              (some ((genesisBlock :: rest).getLast (by simp)).currentHash) et ent eid p t
            eventType := et
            entityType := ent
            entityId := eid
            payload := p
            createdAt := t }
      · simp only [applyStep, appendBlock]
        rw [List.getLast?_eq_getLast _ (by simp)]
        simp
      · rw [show rest ++ [_] = rest ++ _ :: [] from rfl, goodFrom_decomp]
        refine ⟨hgood, ?_, ⟨rfl, rfl⟩, trivial⟩
        simp [blockHashOk, digestBlock]

theorem goodFrom_get_adj :
    ∀ (rest : List Block) (p : Block), goodFrom p rest →
      ∀ i (h : i + 1 < (p :: rest).length),
        adjOk ((p :: rest).get ⟨i, Nat.lt_of_succ_lt h⟩) ((p :: rest).get ⟨i + 1, h⟩)
  | [], _, _, i, h => by simp at h
  | _ :: _, _, hg, 0, _ => hg.2.1
  | c :: cs, _, hg, i + 1, h =>
      goodFrom_get_adj cs c hg.2.2 i (by simpa using Nat.lt_of_succ_lt_succ (by simpa using h))

theorem goodFrom_get_seq :
    ∀ (rest : List Block) (p : Block), goodFrom p rest →
      ∀ i (h : i < (p :: rest).length), ((p :: rest).get ⟨i, h⟩).seq = p.seq + i
  | _, _, _, 0, _ => rfl
  | [], _, _, i + 1, h => by simp at h
  | c :: cs, p, hg, i + 1, h => by
      have hrec := goodFrom_get_seq cs c hg.2.2 i
        (by simpa using Nat.lt_of_succ_lt_succ (by simpa using h))
      show ((c :: cs).get ⟨i, _⟩).seq = p.seq + (i + 1)
      rw [hrec, hg.2.1.2]
      omega

/-! ## Tampering with a stored block -/

/-- A mutation of a single stored field of a persisted block, carrying the new
value. -/
inductive FieldMut where
  | seq (v : Nat)
  | previousHash (v : Option Nat)
  | currentHash (v : Nat)
  | eventType (v : String)
  | entityType (v : String)
  | entityId (v : Option String)
  | payload (v : String)
  | createdAt (v : Nat)
deriving DecidableEq, Repr

/-- Overwrite the chosen stored field with the new value. -/
def applyMut (b : Block) : FieldMut → Block
  | .seq v => { b with seq := v }
  | .previousHash v => { b with previousHash := v }
  | .currentHash v => { b with currentHash := v }
  | .eventType v => { b with eventType := v }
  | .entityType v => { b with entityType := v }
  | .entityId v => { b with entityId := v }
  | .payload v => { b with payload := v }
  | .createdAt v => { b with createdAt := v }

/-- The mutation actually changes the stored value. -/
def mutChanges (b : Block) : FieldMut → Bool
  | .seq v => v != b.seq
  | .previousHash v => v != b.previousHash
  | .currentHash v => v != b.currentHash
  | .eventType v => v != b.eventType
  | .entityType v => v != b.entityType
  | .entityId v => v != b.entityId
  | .payload v => v != b.payload
  | .createdAt v => v != b.createdAt

/-- Mutations of fields that enter the digest but are not themselves compared
against a neighbouring block (everything except `current_hash` and
`sequence_number`). -/
def hashedOnly : FieldMut → Bool
  | .currentHash _ => false
  | .seq _ => false
  | _ => true

/-- The tampered ledger: block `n` with one stored field overwritten. -/
def tamperAt (l : List Block) (n : Nat) (h : n < l.length) (m : FieldMut) : List Block :=
  l.set n (applyMut (l.get ⟨n, h⟩) m)

theorem applyMut_break_hash {b : Block} {m : FieldMut}
    (hb : blockHashOk b) (hc : mutChanges b m = true) :
    ¬ blockHashOk (applyMut b m) := by
  cases m with
  | currentHash v =>
    simp only [blockHashOk, digestBlock, applyMut, mutChanges, bne_iff_ne, ne_eq] at hb hc ⊢
    intro h
    exact hc (h.trans hb.symm)
  | seq v =>
    simp only [blockHashOk, digestBlock, applyMut, mutChanges, bne_iff_ne, ne_eq] at hb hc ⊢
    intro h
    obtain ⟨h1, -⟩ := digest_injective (hb.symm.trans h)
    simp_all
  | previousHash v =>
    simp only [blockHashOk, digestBlock, applyMut, mutChanges, bne_iff_ne, ne_eq] at hb hc ⊢
    intro h
    obtain ⟨-, h2, -⟩ := digest_injective (hb.symm.trans h)
    simp_all
  | eventType v =>
    simp only [blockHashOk, digestBlock, applyMut, mutChanges, bne_iff_ne, ne_eq] at hb hc ⊢
    intro h
    obtain ⟨-, -, h3, -⟩ := digest_injective (hb.symm.trans h)
    simp_all
  | entityType v =>
    simp only [blockHashOk, digestBlock, applyMut, mutChanges, bne_iff_ne, ne_eq] at hb hc ⊢
    intro h
    obtain ⟨-, -, -, h4, -⟩ := digest_injective (hb.symm.trans h)
    simp_all
  | entityId v =>
    simp only [blockHashOk, digestBlock, applyMut, mutChanges, bne_iff_ne, ne_eq] at hb hc ⊢
    intro h
    obtain ⟨-, -, -, -, h5, -⟩ := digest_injective (hb.symm.trans h)
    simp_all
  | payload v =>
    simp only [blockHashOk, digestBlock, applyMut, mutChanges, bne_iff_ne, ne_eq] at hb hc ⊢
    intro h
    obtain ⟨-, -, -, -, -, h6, -⟩ := digest_injective (hb.symm.trans h)
    simp_all
  | createdAt v =>
    simp only [blockHashOk, digestBlock, applyMut, mutChanges, bne_iff_ne, ne_eq] at hb hc ⊢
    intro h
    obtain ⟨-, -, -, -, -, -, h7⟩ := digest_injective (hb.symm.trans h)
    simp_all

theorem applyMut_keeps {b : Block} {m : FieldMut} (h : hashedOnly m = true) :
    (applyMut b m).currentHash = b.currentHash ∧ (applyMut b m).seq = b.seq := by
  cases m <;> simp [applyMut, hashedOnly] at h ⊢

theorem checkPair_seq_mem {i : Nat} {p c : Block} {e : VError}
    (h : e ∈ checkPair i p c) : e.seq = i := by
  unfold checkPair at h
  rcases List.mem_append.mp h with h1 | h1
  · rcases List.mem_append.mp h1 with h2 | h2
    · split at h2
      · simp at h2
      · simp at h2
        rw [h2]
    · split at h2
      · simp at h2
      · simp at h2
        rw [h2]
  · split at h1
    · simp at h1
    · simp at h1
      rw [h1]

/-- C1 (amended): on a reachable ledger, overwriting any single stored field of
any block other than genesis with a different value makes `verify` return
`is_valid = false`; at least one reported error names that block's sequence
position, every reported error names that position or the next one, and when
the overwritten field is neither `current_hash` nor `sequence_number` every
error names exactly the tampered position.  The scan covers the whole chain
(`blocks_checked` equals the chain length) and, for every chain whatsoever,
`is_valid` is true iff the error list is empty.  The claim's universal form
fails only at the genesis block, whose sentinel hash is not recomputed by the
verifier (spec section 4.2 checks blocks `i > 0` only); see the
counterexample. -/
theorem verify_detects_tampering {l : List Block} (hR : Reachable l)
    {n : Nat} (hn : 0 < n) (hlt : n < l.length) (m : FieldMut)
    (hchg : mutChanges (l.get ⟨n, hlt⟩) m = true) :
    (verify (tamperAt l n hlt m)).is_valid = false ∧
    (∃ e ∈ (verify (tamperAt l n hlt m)).errors, e.seq = n) ∧
    (∀ e ∈ (verify (tamperAt l n hlt m)).errors, e.seq = n ∨ e.seq = n + 1) ∧
    (hashedOnly m = true → ∀ e ∈ (verify (tamperAt l n hlt m)).errors, e.seq = n) ∧
    (verify (tamperAt l n hlt m)).blocks_checked = (tamperAt l n hlt m).length ∧
    (∀ chain, (verify chain).is_valid = true ↔ (verify chain).errors = []) := by
  obtain ⟨rest, rfl, hgood⟩ := reachable_struct hR
  obtain ⟨j, rfl⟩ : ∃ j, n = j + 1 := ⟨n - 1, by omega⟩
  have hj : j < rest.length := by
    have := hlt
    simp only [List.length_cons] at this
    omega
  have hsplit : rest = rest.take j ++ rest.get ⟨j, hj⟩ :: rest.drop (j + 1) := by
    conv_lhs => rw [← List.take_append_drop j rest]
    rw [List.drop_eq_getElem_cons hj]
    rfl
  have hprelen : (rest.take j).length = j := by
    rw [List.length_take]
    omega
  have hget : (genesisBlock :: rest).get ⟨j + 1, hlt⟩ = rest.get ⟨j, hj⟩ := rfl
  have hchg2 : mutChanges (rest.get ⟨j, hj⟩) m = true := by
    rw [← hget]
    exact hchg
  have hgood2 : goodFrom genesisBlock
      (rest.take j ++ rest.get ⟨j, hj⟩ :: rest.drop (j + 1)) := by
    rw [← hsplit]
    exact hgood
  rw [goodFrom_decomp] at hgood2
  obtain ⟨hgpre, hbnhash, hbnadj, hgpost⟩ := hgood2
  have hset : tamperAt (genesisBlock :: rest) (j + 1) hlt m
      = genesisBlock ::
          (rest.take j ++ applyMut (rest.get ⟨j, hj⟩) m :: rest.drop (j + 1)) := by
    unfold tamperAt
    rw [hget]
    show (genesisBlock :: rest).set (j + 1) _ = _
    rw [List.set_cons_succ, List.set_eq_take_cons_drop _ hj]
  have herr : verifyErrors (tamperAt (genesisBlock :: rest) (j + 1) hlt m)
      = checkPair (j + 1) ((genesisBlock :: rest.take j).getLast (by simp))
          (applyMut (rest.get ⟨j, hj⟩) m)
        ++ scanChain (j + 2) (applyMut (rest.get ⟨j, hj⟩) m) (rest.drop (j + 1)) := by
    rw [hset]
    show scanChain 1 genesisBlock _ = _
    rw [scanChain_append, scanChain_of_good hgpre, scanChain_cons, hprelen]
    rw [show (1 : Nat) + j = j + 1 by omega]
    simp only [List.nil_append]
  have hbreak := applyMut_break_hash hbnhash hchg2
  obtain ⟨t1, hE1⟩ :
      ∃ t, checkPair (j + 1) ((genesisBlock :: rest.take j).getLast (by simp))
          (applyMut (rest.get ⟨j, hj⟩) m)
        = (⟨j + 1, VKind.hashMismatch⟩ : VError) :: t := by
    unfold checkPair
    rw [if_neg (show ¬ ((applyMut (rest.get ⟨j, hj⟩) m).currentHash
      = digestBlock (applyMut (rest.get ⟨j, hj⟩) m)) from hbreak)]
    exact ⟨_, rfl⟩
  have hE2 : (∀ e ∈ scanChain (j + 2) (applyMut (rest.get ⟨j, hj⟩) m)
        (rest.drop (j + 1)), e.seq = j + 2)
      ∧ (hashedOnly m = true →
          scanChain (j + 2) (applyMut (rest.get ⟨j, hj⟩) m) (rest.drop (j + 1)) = []) := by
    cases hd : rest.drop (j + 1) with
    | nil => simp [scanChain]
    | cons c ps =>
      rw [hd] at hgpost
      obtain ⟨hch, hca, hgps⟩ := hgpost
      have hc1 : c.currentHash = digestBlock c := hch
      constructor
      · intro e he
        rw [scanChain_cons, scanChain_of_good hgps] at he
        simp only [List.append_nil] at he
        exact checkPair_seq_mem he
      · intro hho
        obtain ⟨hkc, hks⟩ := applyMut_keeps (b := rest.get ⟨j, hj⟩) hho
        rw [scanChain_cons, scanChain_of_good hgps]
        unfold checkPair
        rw [if_pos hc1, if_pos (by rw [hkc]; exact hca.1),
          if_pos (by rw [hks]; exact hca.2)]
        simp
  refine ⟨?_, ?_, ?_, ?_, rfl, ?_⟩
  · show (verifyErrors (tamperAt (genesisBlock :: rest) (j + 1) hlt m)).isEmpty = false
    rw [herr, hE1]
    simp
  · refine ⟨⟨j + 1, VKind.hashMismatch⟩, ?_, rfl⟩
    show _ ∈ verifyErrors (tamperAt (genesisBlock :: rest) (j + 1) hlt m)
    rw [herr, hE1]
    simp
  · intro e he
    have he2 : e ∈ verifyErrors (tamperAt (genesisBlock :: rest) (j + 1) hlt m) := he
    rw [herr] at he2
    rcases List.mem_append.mp he2 with h1 | h1
    · exact Or.inl (checkPair_seq_mem h1)
    · exact Or.inr (hE2.1 e h1)
  · intro hho e he
    have he2 : e ∈ verifyErrors (tamperAt (genesisBlock :: rest) (j + 1) hlt m) := he
    rw [herr, hE2.2 hho] at he2
    simp only [List.append_nil] at he2
    exact checkPair_seq_mem he2
  · intro chain
    simp [verify, List.isEmpty_iff]

/-- A concrete reachable ledger: genesis followed by one appended
`tab_switch` block. -/
def chainEx : List Block :=
  applyStep (Step.append "tab_switch" "attempt" (some "attempt-1") "\x7b\x7d" 5)
    (initGenesis [])

/-- C1, counterexample to the claim as stated: mutating a stored field (the
payload) of the persisted genesis block and re-running `verify` yields
`is_valid = true` with an empty error list — the verifier never recomputes the
genesis sentinel hash, so the tampering goes unreported and no error names the
block's sequence number. -/
theorem verify_misses_genesis_tampering :
    mutChanges genesisBlock (FieldMut.payload "tampered") = true ∧
    verify (tamperAt (initGenesis []) 0 (by decide) (FieldMut.payload "tampered"))
      = { is_valid := true, blocks_checked := 1, errors := [] } := by
  constructor
  · decide
  · rfl

/-- C1 witness: tampering with the payload of block 1 of the concrete
two-block chain is detected and the error names sequence position 1. -/
theorem verify_detects_tampering_witness :
    (verify (tamperAt chainEx 1 (by decide) (FieldMut.payload "tampered"))).is_valid
        = false ∧
    ∃ e ∈ (verify (tamperAt chainEx 1 (by decide) (FieldMut.payload "tampered"))).errors,
      e.seq = 1 := by
  have h := verify_detects_tampering (l := chainEx)
    (Reachable.step _ Reachable.genesis) (n := 1) (by decide) (by decide)
    (FieldMut.payload "tampered") (by decide)
  exact ⟨h.1, h.2.1⟩

/-- C2: every reachable ledger state is hash-chained (each block's stored
`previous_hash` equals the predecessor's stored `current_hash`), its sequence
numbers form the gapless run `0..N` (block `i` has sequence number `i`), and
every further operation only appends — each already-stored block, its
`current_hash` included, is preserved verbatim (the old state is an unchanged
prefix of the new one). -/
theorem ledger_chain_invariants {l : List Block} (hR : Reachable l) :
    (∀ i (h : i + 1 < l.length),
        (l.get ⟨i + 1, h⟩).previousHash
          = some (l.get ⟨i, Nat.lt_of_succ_lt h⟩).currentHash) ∧
    (∀ i (h : i < l.length), (l.get ⟨i, h⟩).seq = i) ∧
    (∀ s : Step, ∃ tail, applyStep s l = l ++ tail) := by
  obtain ⟨rest, rfl, hgood⟩ := reachable_struct hR
  refine ⟨?_, ?_, ?_⟩
  · intro i h
    exact (goodFrom_get_adj rest genesisBlock hgood i h).1
  · intro i h
    have h0 := goodFrom_get_seq rest genesisBlock hgood i h
    rw [h0]
    show genesisBlock.seq + i = i
    simp [genesisBlock]
  · intro s
    cases s with
    | bootstrap =>
      refine ⟨[], ?_⟩
      simp [applyStep, initGenesis]
    | append et ent eid p t =>
      show ∃ tail, appendBlock (genesisBlock :: rest) et ent eid p t = _
      unfold appendBlock
      rw [List.getLast?_eq_getLast _ (by simp)]
      exact ⟨_, rfl⟩

/-- C2 witness: the invariants instantiated on the concrete two-block chain. -/
theorem ledger_chain_invariants_witness :
    (chainEx.get ⟨1, by decide⟩).previousHash
        = some (chainEx.get ⟨0, by decide⟩).currentHash ∧
    (chainEx.get ⟨1, by decide⟩).seq = 1 ∧
    (∃ tail, applyStep Step.bootstrap chainEx = chainEx ++ tail) := by
  have h := ledger_chain_invariants (l := chainEx) (Reachable.step _ Reachable.genesis)
  exact ⟨h.1 0 (by decide), h.2.1 1 (by decide), h.2.2 Step.bootstrap⟩

/-- C6: bootstrapping creates the genesis block with `sequence_number = 0`,
`previous_hash = null`, the well-known constant `current_hash` and
`event_type = system_init`, and bootstrapping is idempotent: the ledger state
after two initialisation calls equals the state after one, on every ledger
state. -/
theorem bootstrap_idempotent_genesis :
    (∀ l, initGenesis (initGenesis l) = initGenesis l) ∧
    initGenesis [] = [genesisBlock] ∧
    genesisBlock.seq = 0 ∧
    genesisBlock.previousHash = none ∧
    genesisBlock.currentHash = genesisSentinelHash ∧
    genesisBlock.eventType = "system_init" := by
  refine ⟨?_, rfl, rfl, rfl, rfl, rfl⟩
  intro l
  cases l with
  | nil => rfl
  | cons a as => rfl

/-! ## The exam-session event handling (`ExamSessionPage.jsx`) -/

/-- A raw proctoring event as built by the browser-side handlers of
`ExamSessionPage.jsx`: an `event_type` tag and a description (the metadata
object is opaque to every decision taken and is omitted). -/
structure PEvent where
  event_type : String
  description : String
deriving DecidableEq, Repr

/-- The client-visible outcome of handling one event: nothing, a forced
termination with its reason and triggering event type, or log-only. -/
inductive PAction where
  | none
  | terminate (reason : String) (eventType : String)
  | logOnly
deriving DecidableEq, Repr

/-- The client-side session state of `ExamSessionPage.jsx` that the handlers
read and write: the attempt id (set once the attempt starts), the
`proctoringActive` flag, the recent-events list (`setEvents`, kept to the 10
most recent), the events sent to the server via `proctoringService.logEvent`,
and a count of `examService.terminateAttempt` calls issued. -/
structure Session where
  attemptId : Option String
  proctoringActive : Bool
  events : List PEvent
  logged : List PEvent
  terminations : Nat
deriving DecidableEq, Repr

/-- `autoTerminate` of `ExamSessionPage.jsx` (lines 328-351): bail out when no
attempt is running; bail out when `proctoringActive` is already false
("Prevent multiple termination calls"); otherwise clear the flag, issue the
`terminateAttempt` request and surface the termination to the student. -/
def autoTerminate (s : Session) (reason eventType : String) : Session × PAction :=
  if s.attemptId = none then (s, .none)
  else if s.proctoringActive = false then (s, .none)
  else ({ s with proctoringActive := false, terminations := s.terminations + 1 },
    .terminate reason eventType)

/-- The three event types that `handleProctoringEvent` terminates on
immediately. -/
def autoTerminateType (et : String) : Bool :=
  et = "multiple_faces" || et = "tab_switch" || et = "window_blur"

/-- `handleProctoringEvent` of `ExamSessionPage.jsx` (lines 353-391): ignore
events with no running attempt; `multiple_faces`, `tab_switch` and
`window_blur` go straight to `autoTerminate` (each with its fixed reason
string) and are not logged; every other event type is sent to
`proctoringService.logEvent` and prepended to the recent-events list, capped
at 10. -/
def handleProctoringEvent (s : Session) (ev : PEvent) : Session × PAction :=
  if s.attemptId = none then (s, .none)
  else if ev.event_type = "multiple_faces" then
    autoTerminate s "Multiple persons detected" "multiple_faces"
  else if ev.event_type = "tab_switch" then
    autoTerminate s "Tab/Window switch detected" "tab_switch"
  else if ev.event_type = "window_blur" then
    autoTerminate s "Window lost focus" "window_blur"
  else
    ({ s with logged := s.logged ++ [ev], events := (ev :: s.events).take 10 },
      .logOnly)

/-- C4: with an attempt running and the session not yet terminal
(`proctoringActive` true), a single event of type `multiple_faces`,
`tab_switch` or `window_blur` yields the terminate action on that first
occurrence — no strike count is consulted (the state's event history is
arbitrary) — while an event of any other type yields the log-only action and
leaves the session active; the code takes the spec's no-warn option (no repeat
threshold exists). -/
theorem single_violation_terminates {s : Session} {a : String} (hA : s.attemptId = some a)
    (hActive : s.proctoringActive = true) (ev : PEvent) :
    (autoTerminateType ev.event_type = true →
      (∃ r, (handleProctoringEvent s ev).2 = .terminate r ev.event_type) ∧
      (handleProctoringEvent s ev).1.proctoringActive = false ∧
      (handleProctoringEvent s ev).1.terminations = s.terminations + 1) ∧
    (autoTerminateType ev.event_type = false →
      (handleProctoringEvent s ev).2 = .logOnly ∧
      (handleProctoringEvent s ev).1.proctoringActive = true ∧
      (handleProctoringEvent s ev).1.terminations = s.terminations ∧
      (handleProctoringEvent s ev).1.logged = s.logged ++ [ev]) := by
  have hA2 : ¬ s.attemptId = none := by simp [hA]
  have hAct2 : ¬ s.proctoringActive = false := by simp [hActive]
  obtain ⟨et, desc⟩ := ev
  constructor
  · intro hk
    simp only [autoTerminateType, Bool.or_eq_true, decide_eq_true_eq] at hk
    rcases hk with (hk | hk) | hk <;> subst hk <;>
      simp [handleProctoringEvent, autoTerminate, hA2, hAct2, hActive]
  · intro hk
    simp only [autoTerminateType, Bool.or_eq_false_iff,
      decide_eq_false_iff_not] at hk
    obtain ⟨⟨h1, h2⟩, h3⟩ := hk
    simp [handleProctoringEvent, h1, h2, h3, hA2, hActive]

/-- C4 witness: a concrete active session; a `multiple_faces` event terminates
with the source's reason string, a `no_face` event is log-only. -/
theorem single_violation_terminates_witness :
    (∃ r, (handleProctoringEvent
        ⟨some "a-1", true, [], [], 0⟩ ⟨"multiple_faces", "2 faces detected"⟩).2
          = .terminate r "multiple_faces") ∧
    (handleProctoringEvent
        ⟨some "a-1", true, [], [], 0⟩ ⟨"no_face", "No face detected"⟩).2
      = .logOnly := by
  have h1 := single_violation_terminates (s := ⟨some "a-1", true, [], [], 0⟩)
    (a := "a-1") rfl rfl ⟨"multiple_faces", "2 faces detected"⟩
  have h2 := single_violation_terminates (s := ⟨some "a-1", true, [], [], 0⟩)
    (a := "a-1") rfl rfl ⟨"no_face", "No face detected"⟩
  exact ⟨(h1.1 (by decide)).1, (h2.2 (by decide)).1⟩

/-- C5, counterexample to the claim as stated: in a terminal session
(`proctoringActive = false`), a further `multiple_faces` event is not
"accepted for logging" — `handleProctoringEvent` routes it to `autoTerminate`,
which bails out before any `logEvent` call, so the event is dropped entirely
(the returned action is `none`, not the log action, and the logged list is
unchanged). -/
theorem terminal_violation_dropped_not_logged :
    handleProctoringEvent ⟨some "a-1", false, [], [], 1⟩
        ⟨"multiple_faces", "2 faces detected"⟩
      = (⟨some "a-1", false, [], [], 1⟩, PAction.none) ∧
    PAction.none ≠ PAction.logOnly := by
  constructor
  · rfl
  · decide

/-- C5 (amended): once the session is terminal, `multiple_faces`, `tab_switch`
and `window_blur` events are dropped without logging and without any state
change, while events of every other type are still logged but change neither
the active flag nor the termination count; and the transition to terminated
happens exactly once — delivering the same violating event twice from an
active session issues exactly one termination, the second delivery being a
no-op. -/
theorem terminal_state_idempotent {s : Session} {a : String}
    (hA : s.attemptId = some a) (hTerm : s.proctoringActive = false) (ev : PEvent) :
    (autoTerminateType ev.event_type = true →
      handleProctoringEvent s ev = (s, .none)) ∧
    (autoTerminateType ev.event_type = false →
      (handleProctoringEvent s ev).2 = .logOnly ∧
      (handleProctoringEvent s ev).1.proctoringActive = false ∧
      (handleProctoringEvent s ev).1.terminations = s.terminations) ∧
    (∀ s2 : Session, ∀ a2 : String, s2.attemptId = some a2 →
      s2.proctoringActive = true → autoTerminateType ev.event_type = true →
      (handleProctoringEvent s2 ev).1.terminations = s2.terminations + 1 ∧
      (handleProctoringEvent (handleProctoringEvent s2 ev).1 ev).1.terminations
          = s2.terminations + 1 ∧
      (handleProctoringEvent (handleProctoringEvent s2 ev).1 ev).2 = .none) := by
  have hA2 : ¬ s.attemptId = none := by simp [hA]
  obtain ⟨et, desc⟩ := ev
  refine ⟨?_, ?_, ?_⟩
  · intro hk
    simp only [autoTerminateType, Bool.or_eq_true, decide_eq_true_eq] at hk
    rcases hk with (hk | hk) | hk <;> subst hk <;>
      simp [handleProctoringEvent, autoTerminate, hA2, hTerm]
  · intro hk
    simp only [autoTerminateType, Bool.or_eq_false_iff,
      decide_eq_false_iff_not] at hk
    obtain ⟨⟨h1, h2⟩, h3⟩ := hk
    simp [handleProctoringEvent, h1, h2, h3, hA2, hTerm]
  · intro s2 a2 hA3 hAct3 hk
    have hA4 : ¬ s2.attemptId = none := by simp [hA3]
    have hAct4 : ¬ s2.proctoringActive = false := by simp [hAct3]
    simp only [autoTerminateType, Bool.or_eq_true, decide_eq_true_eq] at hk
    rcases hk with (hk | hk) | hk <;> subst hk <;>
      simp [handleProctoringEvent, autoTerminate, hA4, hAct4]

/-- C5 witness: the amended behaviour on a concrete terminated session and a
concrete double delivery of `tab_switch`. -/
theorem terminal_state_idempotent_witness :
    handleProctoringEvent ⟨some "a-1", false, [], [], 1⟩ ⟨"tab_switch", "switched"⟩
        = (⟨some "a-1", false, [], [], 1⟩, .none) ∧
    (handleProctoringEvent ⟨some "a-1", false, [], [], 1⟩ ⟨"no_face", "gone"⟩).2
        = .logOnly ∧
    (handleProctoringEvent
        (handleProctoringEvent ⟨some "a-1", true, [], [], 0⟩
          ⟨"tab_switch", "switched"⟩).1
        ⟨"tab_switch", "switched"⟩).1.terminations = 1 := by
  have h1 := terminal_state_idempotent (s := ⟨some "a-1", false, [], [], 1⟩)
    (a := "a-1") rfl rfl ⟨"tab_switch", "switched"⟩
  have h2 := terminal_state_idempotent (s := ⟨some "a-1", false, [], [], 1⟩)
    (a := "a-1") rfl rfl ⟨"no_face", "gone"⟩
  refine ⟨h1.1 (by decide), (h2.2.1 (by decide)).1, ?_⟩
  exact (h1.2.2 ⟨some "a-1", true, [], [], 0⟩ "a-1" rfl rfl (by decide)).2.1

/-! ## Ordering of the termination record and the termination signal -/

/-- One externally observable effect of the termination path. -/
inductive TermObs where
  | appendTermRecord (eventType : String)
  | signalTerminated
deriving DecidableEq, Repr

/-- Modelled from the spec and `autoTerminate` of `ExamSessionPage.jsx` (lines
328-351): the client awaits `examService.terminateAttempt` — whose server side
(not in the shipped sources) durably appends the `attempt_terminated` ledger
block carrying the triggering event type before replying — and only then
surfaces the termination (`alert` + `navigate`).  When the request fails, the
`catch` branch still surfaces the termination and navigates away, with no
ledger record appended. -/
def autoTerminateObs (serverOk : Bool) (eventType : String) : List TermObs :=
  if serverOk then [.appendTermRecord eventType, .signalTerminated]
  else [.signalTerminated]

/-- C3, counterexample to the claim as stated: when the `terminateAttempt`
request fails, `autoTerminate` still reports the termination to the student
(`alert('Exam terminated due to violation.')` + `navigate`) although no
`attempt_terminated` block was appended — a termination is reported without a
corresponding immutable ledger record. -/
theorem termination_signal_without_record :
    autoTerminateObs false "multiple_faces" = [TermObs.signalTerminated] := rfl

/-- C3 (amended): when the terminate request succeeds, the
`attempt_terminated` append happens-before the client-visible termination
signal (the append strictly precedes the signal in the observation trace);
when the request fails, the client still signals the termination with no
record appended. -/
theorem termination_record_before_signal (eventType : String) :
    autoTerminateObs true eventType
        = [.appendTermRecord eventType, .signalTerminated] ∧
    (∃ i j, i < j ∧
      (autoTerminateObs true eventType).get? i = some (.appendTermRecord eventType) ∧
      (autoTerminateObs true eventType).get? j = some .signalTerminated) ∧
    autoTerminateObs false eventType = [.signalTerminated] := by
  exact ⟨rfl, ⟨0, 1, by omega, rfl, rfl⟩, rfl⟩

/-! ## Event severity classification -/

/-- Severity tiers (spec section 4.3; `constants.js` stores them as the
strings low / medium / high / critical). -/
inductive Severity where
  | low
  | medium
  | high
  | critical
deriving DecidableEq, Repr

/-- The static severity table `EVENT_SEVERITY` of
`frontend/src/utils/constants.js`, entry for entry. -/
def EVENT_SEVERITY : List (String × Severity) :=
  [("face_detection", .low),
   ("voice_detection", .low),
   ("stress_alert", .medium),
   ("tab_switch", .medium),
   ("window_blur", .medium),
   ("multiple_faces", .high),
   ("no_face", .high),
   ("suspicious_behavior", .high),
   ("copy_attempt", .high),
   ("paste_attempt", .high),
   ("cut_attempt", .high),
   ("right_click_attempt", .medium),
   ("restricted_key_attempt", .high),
   ("fullscreen_exit", .high),
   ("screen_recording_detected", .critical)]

/-- Table lookup: the severity of a known raw signal tag. -/
def severityOf (tag : String) : Option Severity :=
  (EVENT_SEVERITY.find? (fun p => p.1 == tag)).map (fun p => p.2)

/-- A typed proctoring event produced by the classifier: the raw tag, its
severity tier from the static table, and the source-provided confidence score
(modelled as a rational in place of the JS float). -/
structure ClassifiedEvent where
  tag : String
  severity : Severity
  confidence : ℚ
deriving DecidableEq, Repr

/-- The classifier's failure mode on an unmapped raw tag. -/
inductive ClassifyError where
  | UnknownSignalError
deriving DecidableEq, Repr

/-- Modelled from the spec: `classify(raw_signal) -> ProctoringEvent`, a "pure
function" mapping a raw signal tag plus confidence "into a typed event with a
fixed severity tier" via "a static table", failing with `UnknownSignalError`
on tags outside the table "rather than silently defaulting" (spec section
4.3).  The server-side classifier is not in the shipped sources; the severity
table is the `EVENT_SEVERITY` table of `frontend/src/utils/constants.js`. -/
def classify (tag : String) (confidence : ℚ) : Except ClassifyError ClassifiedEvent :=
  match severityOf tag with
  | some sev => .ok ⟨tag, sev, confidence⟩
  | none => .error .UnknownSignalError

/-- C7: `classify` is a pure total function on the tags of the static severity
table — any tag with a table entry classifies to exactly that severity, in
particular `classify("no_face", 0.9)` returns severity `high` — and it fails
with `UnknownSignalError` exactly on the tags outside the table (spec's
example `totally_unknown_tag` included), never silently defaulting. -/
theorem classify_total_on_table (tag : String) (c : ℚ) (sev : Severity) :
    (severityOf tag = some sev → classify tag c = .ok ⟨tag, sev, c⟩) ∧
    (classify tag c = .error .UnknownSignalError ↔ severityOf tag = none) ∧
    classify "no_face" (9/10) = .ok ⟨"no_face", .high, 9/10⟩ ∧
    classify "totally_unknown_tag" c = .error .UnknownSignalError := by
  refine ⟨?_, ?_, by rfl, by rfl⟩
  · intro h
    simp [classify, h]
  · unfold classify
    cases h : severityOf tag <;> simp [h]

/-- C7 witness: the table lookup hypothesis discharged on the concrete
`voice_detection` entry. -/
theorem classify_total_on_table_witness :
    classify "voice_detection" (1/2)
      = .ok ⟨"voice_detection", Severity.low, 1/2⟩ :=
  (classify_total_on_table "voice_detection" (1/2) Severity.low).1 (by rfl)

/-! ## The client-side event throttle (`FaceMonitor.jsx`) -/

/-- `EVENT_THROTTLE` of `constants.js`: send events of the same type at most
once per 2000 ms. -/
def EVENT_THROTTLE : Nat := 2000

/-- `triggerEvent` of `FaceMonitor.jsx` (lines 163-182): per event type, the
time of the last emission (`lastEventTimeRef.current[eventType] || 0`,
modelled as a total map defaulting to 0).  A signal arriving within
`EVENT_THROTTLE` of the last emission of the same type is dropped (state
unchanged, nothing queued); otherwise the timestamp is recorded and the event
is emitted. -/
def triggerEvent (lastTime : String → Nat) (eventType : String) (now : Nat) :
    (String → Nat) × Bool :=
  if now - lastTime eventType < EVENT_THROTTLE then (lastTime, false)
  else (Function.update lastTime eventType now, true)

/-- C8: starting from a state where the event type's throttle window has
expired, two raw signals of the same type less than 2000 ms apart produce
exactly one emission — the first is emitted, the duplicate is dropped with the
throttle state unchanged (dropped, not queued) — while a signal of a different
event type inside the same window (whose own window has expired) is not
suppressed. -/
theorem duplicate_signal_throttled (st : String → Nat) (e1 e2 : String)
    (t1 t2 : Nat) (h1 : st e1 + EVENT_THROTTLE ≤ t1) (hle : t1 ≤ t2)
    (hwin : t2 < t1 + EVENT_THROTTLE) (hne : e2 ≠ e1)
    (h2 : st e2 + EVENT_THROTTLE ≤ t2) :
    (triggerEvent st e1 t1).2 = true ∧
    triggerEvent (triggerEvent st e1 t1).1 e1 t2 = ((triggerEvent st e1 t1).1, false) ∧
    (triggerEvent (triggerEvent st e1 t1).1 e2 t2).2 = true := by
  unfold EVENT_THROTTLE at h1 hwin h2
  have hfire1 : ¬ t1 - st e1 < EVENT_THROTTLE := by
    unfold EVENT_THROTTLE
    omega
  have hstep : triggerEvent st e1 t1 = (Function.update st e1 t1, true) := by
    unfold triggerEvent
    rw [if_neg hfire1]
  have hst1 : (triggerEvent st e1 t1).1 = Function.update st e1 t1 := by
    rw [hstep]
  refine ⟨by rw [hstep], ?_, ?_⟩
  · rw [hst1]
    unfold triggerEvent
    rw [if_pos (by rw [Function.update_same]; unfold EVENT_THROTTLE; omega)]
  · rw [hst1]
    unfold triggerEvent
    rw [if_neg (by rw [Function.update_noteq hne]; unfold EVENT_THROTTLE; omega)]

/-- C8 witness: from the initial throttle state, a `no_face` signal at t=2000
is emitted, its duplicate at t=3500 is dropped with the state unchanged, and a
`tab_switch` signal at t=3500 is emitted. -/
theorem duplicate_signal_throttled_witness :
    (triggerEvent (fun _ => 0) "no_face" 2000).2 = true ∧
    triggerEvent (triggerEvent (fun _ => 0) "no_face" 2000).1 "no_face" 3500
        = ((triggerEvent (fun _ => 0) "no_face" 2000).1, false) ∧
    (triggerEvent (triggerEvent (fun _ => 0) "no_face" 2000).1 "tab_switch" 3500).2
        = true :=
  duplicate_signal_throttled (fun _ => 0) "no_face" "tab_switch" 2000 3500
    (by decide) (by omega) (by decide) (by decide) (by decide)

/-! ## The persisted attempt status -/

/-- The `attempt_status` enumeration of the current database schema
(`CREATE TYPE attempt_status AS ENUM`, schema line 21). -/
inductive AttemptStatus where
  | in_progress
  | submitted
  | auto_submitted
  | abandoned
deriving DecidableEq, Repr

/-- The string label of each persisted status value. -/
def statusLabel : AttemptStatus → String
  | .in_progress => "in_progress"
  | .submitted => "submitted"
  | .auto_submitted => "auto_submitted"
  | .abandoned => "abandoned"

/-- The persisted enumeration's labels, in schema order. -/
def attempt_status_values : List String :=
  ["in_progress", "submitted", "auto_submitted", "abandoned"]

/-- C9, counterexample to the claim as stated: the persisted status domain is
not {in_progress, warned, terminated, submitted} — the schema's enumeration
contains no `warned` value at all, and it contains `auto_submitted`, which is
outside the claimed set. -/
theorem attempt_status_set_differs :
    "warned" ∉ attempt_status_values ∧
    "auto_submitted" ∈ attempt_status_values ∧
    "auto_submitted" ∉ ["in_progress", "warned", "terminated", "submitted"] := by
  decide

/-- C9 (amended): the persisted attempt status ranges over exactly the four
schema enumeration values in_progress, submitted, auto_submitted, abandoned —
every status value's label is in the schema list, the four constructors
enumerate that list exactly, and the labels are pairwise distinct; being a
closed enumeration type, every sequence of operations keeps the status inside
this set.  Neither `warned` nor `terminated` is a value of this enumeration
(the old backup schema uses yet another set: in_progress, completed,
terminated, cancelled). -/
theorem attempt_status_closed :
    (∀ s : AttemptStatus, statusLabel s ∈ attempt_status_values) ∧
    ([AttemptStatus.in_progress, .submitted, .auto_submitted, .abandoned].map
        statusLabel = attempt_status_values) ∧
    attempt_status_values.Nodup ∧
    "warned" ∉ attempt_status_values ∧ "terminated" ∉ attempt_status_values := by
  refine ⟨?_, by decide, by decide, by decide, by decide⟩
  intro s
  cases s <;> decide

/-! ## The behavioural-biometrics accumulator (`advancedProctoring.js`)

`captureKeystroke` and `captureMouseMovement` mutate only the buffers and the
baselines; their return value (an anomaly report when the float deviation of
the recent window exceeds a threshold) depends on floating-point summary
statistics and is not consumed by any state transition, so the embedding
models the state transition exactly and omits the returned report.  A profile
is embedded as the sample it is computed from: the JS derives its float
summary fields (`avgInterval`, `stdDev`, `wpm` / `avgVelocity`, `stdDev`)
from precisely that sample and nothing below reads them. -/

/-- One captured keystroke (`captureKeystroke`): key, timestamp, duration
placeholder and pressure (the JS float modelled as a rational). -/
structure Keystroke where
  key : String
  timestamp : Nat
  duration : Nat
  pressure : ℚ
deriving DecidableEq, Repr

/-- One captured mouse movement (`captureMouseMovement`): coordinates,
timestamp and DOM event kind. -/
structure MouseMove where
  x : Int
  y : Int
  timestamp : Nat
  kind : String
deriving DecidableEq, Repr

/-- A typing baseline profile, embedded as the keystroke sample the JS
computes its summary statistics from. -/
structure TypingProfile where
  sample : List Keystroke
deriving DecidableEq, Repr

/-- A mouse baseline profile, embedded as the movement sample the JS computes
its summary statistics from. -/
structure MouseProfile where
  sample : List MouseMove
deriving DecidableEq, Repr

/-- `calculateTypingProfile`: null on fewer than two keystrokes, otherwise the
profile of the given sample. -/
def calculateTypingProfile (ks : List Keystroke) : Option TypingProfile :=
  if ks.length < 2 then none else some ⟨ks⟩

/-- `calculateMouseProfile`: null on fewer than two movements, otherwise the
profile of the given sample. -/
def calculateMouseProfile (ms : List MouseMove) : Option MouseProfile :=
  if ms.length < 2 then none else some ⟨ms⟩

/-- The mutable state of the `AdvancedProctoringService` singleton:
`keystrokeBuffer`, `mouseBuffer`, `baselineTyping`, `baselineMouse`,
`stressLevel` (the constructor initialises the buffers empty, the baselines
null and the stress level 0). -/
structure APState where
  keystrokeBuffer : List Keystroke
  mouseBuffer : List MouseMove
  baselineTyping : Option TypingProfile
  baselineMouse : Option MouseProfile
  stressLevel : ℚ
deriving DecidableEq, Repr

/-- `captureKeystroke` (lines 76-112): push the keystroke, drop the oldest
entry once the buffer exceeds 100 ("Keep only last 100 keystrokes"), and
establish the typing baseline from the buffer once it reaches 50 keystrokes —
only if no baseline is set yet (`!this.baselineTyping`). -/
def captureKeystroke (st : APState) (k : Keystroke) : APState :=
  let buf0 := st.keystrokeBuffer ++ [k]
  let buf := if 100 < buf0.length then buf0.drop 1 else buf0
  let bt := if st.baselineTyping.isNone && decide (50 ≤ buf.length) then
      calculateTypingProfile buf
    else st.baselineTyping
  { st with keystrokeBuffer := buf, baselineTyping := bt }

/-- `captureMouseMovement` (lines 117-151): push the movement, drop the oldest
entry once the buffer exceeds 200, and establish the mouse baseline from the
buffer once it reaches 100 movements — only if no baseline is set yet. -/
def captureMouseMovement (st : APState) (mv : MouseMove) : APState :=
  let buf0 := st.mouseBuffer ++ [mv]
  let buf := if 200 < buf0.length then buf0.drop 1 else buf0
  let bm := if st.baselineMouse.isNone && decide (100 ≤ buf.length) then
      calculateMouseProfile buf
    else st.baselineMouse
  { st with mouseBuffer := buf, baselineMouse := bm }

/-- `reset` (lines 354-363): clear both buffers, both baselines and the stress
level. -/
def resetAP (_ : APState) : APState :=
  { keystrokeBuffer := []
    mouseBuffer := []
    baselineTyping := none
    baselineMouse := none
    stressLevel := 0 }

/-- C10: from any state respecting the buffer bounds, `captureKeystroke`
keeps the keystroke buffer at 100 entries or fewer and `captureMouseMovement`
keeps the mouse buffer at 200 or fewer; once a typing or mouse baseline is
set, neither capture call ever recomputes or changes it; each capture touches
only its own buffer, and neither capture empties a buffer or clears a
baseline — only `reset` does, restoring the constructor state. -/
theorem capture_bounds_and_baselines (st : APState) (k : Keystroke) (mv : MouseMove) :
    (st.keystrokeBuffer.length ≤ 100 →
      (captureKeystroke st k).keystrokeBuffer.length ≤ 100) ∧
    (st.mouseBuffer.length ≤ 200 →
      (captureMouseMovement st mv).mouseBuffer.length ≤ 200) ∧
    (∀ p, st.baselineTyping = some p →
      (captureKeystroke st k).baselineTyping = some p) ∧
    (∀ p, st.baselineMouse = some p →
      (captureMouseMovement st mv).baselineMouse = some p) ∧
    (captureKeystroke st k).baselineMouse = st.baselineMouse ∧
    (captureKeystroke st k).mouseBuffer = st.mouseBuffer ∧
    (captureMouseMovement st mv).baselineTyping = st.baselineTyping ∧
    (captureMouseMovement st mv).keystrokeBuffer = st.keystrokeBuffer ∧
    (captureKeystroke st k).keystrokeBuffer ≠ [] ∧
    (captureMouseMovement st mv).mouseBuffer ≠ [] ∧
    resetAP st = APState.mk [] [] none none 0 := by
  refine ⟨?_, ?_, ?_, ?_, rfl, rfl, rfl, rfl, ?_, ?_, rfl⟩
  · intro h
    unfold captureKeystroke
    dsimp only
    split
    · rename_i hc
      simp only [List.length_drop, List.length_append, List.length_cons,
        List.length_nil] at hc ⊢
      omega
    · rename_i hc
      simp only [List.length_append, List.length_cons, List.length_nil] at hc ⊢
      omega
  · intro h
    unfold captureMouseMovement
    dsimp only
    split
    · rename_i hc
      simp only [List.length_drop, List.length_append, List.length_cons,
        List.length_nil] at hc ⊢
      omega
    · rename_i hc
      simp only [List.length_append, List.length_cons, List.length_nil] at hc ⊢
      omega
  · intro p hp
    unfold captureKeystroke
    simp [hp]
  · intro p hp
    unfold captureMouseMovement
    simp [hp]
  · unfold captureKeystroke
    dsimp only
    split
    · refine List.length_pos.mp ?_
      rename_i hc
      simp only [List.length_drop, List.length_append, List.length_cons,
        List.length_nil] at hc ⊢
      omega
    · refine List.length_pos.mp ?_
      simp only [List.length_append, List.length_cons, List.length_nil]
      omega
  · unfold captureMouseMovement
    dsimp only
    split
    · refine List.length_pos.mp ?_
      rename_i hc
      simp only [List.length_drop, List.length_append, List.length_cons,
        List.length_nil] at hc ⊢
      omega
    · refine List.length_pos.mp ?_
      simp only [List.length_append, List.length_cons, List.length_nil]
      omega

/-- C10 witness: the bounds and baseline-stability facts instantiated on a
concrete state that has a typing and a mouse baseline set. -/
theorem capture_bounds_and_baselines_witness :
    (captureKeystroke
        ⟨[⟨"a", 0, 0, 0⟩], [], some ⟨[]⟩, some ⟨[]⟩, 0⟩
        ⟨"b", 5, 0, 0⟩).keystrokeBuffer.length ≤ 100 ∧
    (captureKeystroke
        ⟨[⟨"a", 0, 0, 0⟩], [], some ⟨[]⟩, some ⟨[]⟩, 0⟩
        ⟨"b", 5, 0, 0⟩).baselineTyping = some ⟨[]⟩ ∧
    (captureMouseMovement
        ⟨[⟨"a", 0, 0, 0⟩], [], some ⟨[]⟩, some ⟨[]⟩, 0⟩
        ⟨3, 4, 7, "mousemove"⟩).baselineMouse = some ⟨[]⟩ := by
  have h := capture_bounds_and_baselines
    ⟨[⟨"a", 0, 0, 0⟩], [], some ⟨[]⟩, some ⟨[]⟩, 0⟩
    ⟨"b", 5, 0, 0⟩ ⟨3, 4, 7, "mousemove"⟩
  exact ⟨h.1 (by decide), h.2.2.1 ⟨[]⟩ rfl, h.2.2.2.1 ⟨[]⟩ rfl⟩
